import Mathlib

set_option maxHeartbeats 1000000

/-- Immutable URI value `{user, password, host}` (the repository's `UriSpec` namedtuple). -/
structure UriSpec where
  user : String
  password : String
  host : String
deriving Repr, DecidableEq

/-- A Python runtime value as stored in the raw configuration mapping.
Covers the shapes the resolver handles: `None`, `bool`, `int`, `str`,
`list`, mappings (as ordered association lists) and `UriSpec` instances.
Floats are outside the scope of this embedding (no claim exercises them). -/
inductive PyVal where
  | vNone : PyVal
  | vBool : Bool → PyVal
  | vInt : Int → PyVal
  | vStr : String → PyVal
  | vList : List PyVal → PyVal
  | vDict : List (String × PyVal) → PyVal
  | vUri : UriSpec → PyVal

/-- Python truthiness (`bool(value)`) on the modelled values: `None`, `False`,
`0`, empty string, empty list and empty dict are falsy; a `UriSpec`
(a non-empty namedtuple) is truthy. -/
def pyFalsy : PyVal → Bool
  | .vNone => true
  | .vBool b => !b
  | .vInt n => n == 0
  | .vStr s => s.isEmpty
  | .vList l => l.isEmpty
  | .vDict d => d.isEmpty
  | .vUri _ => false

/-- The numeric value of a Python number for `==` purposes: `bool` is a
subclass of `int` in Python, so `True == 1` and `False == 0`. -/
def pyNumVal : PyVal → Option Int
  | .vBool b => some (if b then 1 else 0)
  | .vInt n => some n
  | _ => none

mutual
/-- Python `==` on the modelled values: numeric cross-type equality between
`bool` and `int`, structural equality elsewhere (dict equality is modelled
on the association-list representation). -/
def pyEq : PyVal → PyVal → Bool
  | .vBool a, .vBool b => a == b
  | .vBool a, .vInt n => (if a then (1 : Int) else 0) == n
  | .vInt n, .vBool b => n == (if b then (1 : Int) else 0)
  | .vInt m, .vInt n => m == n
  | .vStr s, .vStr t => s == t
  | .vNone, .vNone => true
  | .vList l, .vList m => pyEqList l m
  | .vDict d, .vDict e => pyEqPairs d e
  | .vUri u, .vUri v => u == v
  | _, _ => false

def pyEqList : List PyVal → List PyVal → Bool
  | [], [] => true
  | a :: as, b :: bs => pyEq a b && pyEqList as bs
  | _, _ => false

def pyEqPairs : List (String × PyVal) → List (String × PyVal) → Bool
  | [], [] => true
  | (k, a) :: as, (k2, b) :: bs => k == k2 && pyEq a b && pyEqPairs as bs
  | _, _ => false
end

/-- Python membership test `value in options`: true when some element of
`options` is `==`-equal to `value`. -/
def pyMem (value : PyVal) (options : List PyVal) : Bool :=
  options.any (fun o => pyEq value o)

/-- Recognizer for string values (`isinstance(value, str)`). -/
def PyVal.isStr : PyVal → Bool
  | .vStr _ => true
  | _ => false

/-- Model of Python `str.split(sep)` for a single-character separator, on the
character list of the string: splitting an empty string yields `[[]]`, and in
general the result has one more part than the number of separators. -/
def pySplit (sep : Char) : List Char → List (List Char)
  | [] => [[]]
  | c :: cs =>
    if c = sep then [] :: pySplit sep cs
    else
      match pySplit sep cs with
      | [] => [[c]]
      | p :: ps => (c :: p) :: ps

/-- Characters Python `str.strip()` and `int(str)` treat as whitespace
(the ASCII ones; this embedding restricts strings to ASCII content). -/
def pySpace (c : Char) : Bool :=
  c = ' ' || c = '\t' || c = '\n' || c = '\x0d' || c = '\x0b' || c = '\x0c'

/-- Model of Python `str.strip()` on a character list. -/
def pyStrip (cs : List Char) : List Char :=
  ((cs.dropWhile pySpace).reverse.dropWhile pySpace).reverse

/-- Decimal digit run to a natural number; `none` when empty or non-digit. -/
def pyDigits : List Char → Option Nat
  | [] => none
  | cs =>
    if cs.all (fun c => c.isDigit) then
      some (cs.foldl (fun acc c => acc * 10 + (c.toNat - '0'.toNat)) 0)
    else none

/-- Model of Python `int(s)` on strings: strips whitespace, allows one
optional sign, then a non-empty run of decimal digits; anything else raises
`ValueError` (modelled as `none`). Underscore digit grouping is outside the
scope of this embedding. -/
def py_int_parse (s : String) : Option Int :=
  match pyStrip s.toList with
  | '-' :: ds => (pyDigits ds).map (fun n => -(n : Int))
  | '+' :: ds => (pyDigits ds).map (fun n => (n : Int))
  | ds => (pyDigits ds).map (fun n => (n : Int))

/-- Model of Python `str.lower()` (ASCII). -/
def pyLower (s : String) : String :=
  String.mk (s.toList.map Char.toLower)

/-- Model of `distutils.util.strtobool`: lowercases the input, returns `1`
for `y/yes/t/true/on/1`, `0` for `n/no/f/false/off/0`, and raises
`ValueError` (modelled as `none`) otherwise. -/
def strtobool (val : String) : Option Nat :=
  let v := pyLower val
  if v = "y" || v = "yes" || v = "t" || v = "true" || v = "on" || v = "1" then some 1
  else if v = "n" || v = "no" || v = "f" || v = "false" || v = "off" || v = "0" then some 0
  else none

/-- JSON insignificant whitespace. -/
def jsonWs : List Char → List Char :=
  List.dropWhile (fun c => c = ' ' || c = '\t' || c = '\n' || c = '\x0d')

/-- One JSON string escape character (after the backslash); `\u` escapes are
outside the scope of this embedding. -/
def jsonEsc (e : Char) : Option Char :=
  if e = 'n' then some (Char.ofNat 10)
  else if e = 't' then some (Char.ofNat 9)
  else if e = 'r' then some (Char.ofNat 13)
  else if e = 'b' then some (Char.ofNat 8)
  else if e = 'f' then some (Char.ofNat 12)
  else if e = '"' || e = '\\' || e = '/' then some e
  else none

/-- Body of a JSON string after the opening quote: returns the decoded
content and the remaining input after the closing quote. -/
def jsonStringBody : List Char → Option (List Char × List Char)
  | [] => none
  | '"' :: rest => some ([], rest)
  | '\\' :: e :: rest =>
    match jsonEsc e with
    | some c => (jsonStringBody rest).map (fun p => (c :: p.1, p.2))
    | none => none
  | c :: rest => (jsonStringBody rest).map (fun p => (c :: p.1, p.2))

/-- A JSON unsigned integer literal (leading digit run, no leading zeros).
JSON numbers with a fraction or exponent decode to Python floats, which are
outside the scope of this embedding, so they are rejected here. -/
def jsonUInt (cs : List Char) : Option (Nat × List Char) :=
  let ds := cs.takeWhile Char.isDigit
  let rest := cs.dropWhile Char.isDigit
  if ds.isEmpty then none
  else if ds.head? = some '0' && ds.length > 1 then none
  else
    match rest with
    | '.' :: _ => none
    | 'e' :: _ => none
    | 'E' :: _ => none
    | _ => (pyDigits ds).map (fun n => (n, rest))

/-- A JSON (integer) number literal with optional leading minus sign. -/
def jsonNumber (cs : List Char) : Option (PyVal × List Char) :=
  match cs with
  | '-' :: rest => (jsonUInt rest).map (fun p => (.vInt (-(p.1 : Int)), p.2))
  | _ => (jsonUInt cs).map (fun p => (.vInt (p.1 : Int), p.2))

mutual
/-- Recursive-descent JSON value parser (model of `json.loads`), fuelled by
the input length: literals, strings, integer numbers, arrays and objects. -/
def jsonVal : Nat → List Char → Option (PyVal × List Char)
  | 0, _ => none
  | fuel + 1, cs =>
    match jsonWs cs with
    | 't' :: 'r' :: 'u' :: 'e' :: rest => some (.vBool true, rest)
    | 'f' :: 'a' :: 'l' :: 's' :: 'e' :: rest => some (.vBool false, rest)
    | 'n' :: 'u' :: 'l' :: 'l' :: rest => some (.vNone, rest)
    | '"' :: rest => (jsonStringBody rest).map (fun p => (.vStr (String.mk p.1), p.2))
    | '[' :: rest =>
      (match jsonWs rest with
       | ']' :: r => some (.vList [], r)
       | _ => (jsonElems fuel rest).map (fun p => (.vList p.1, p.2)))
    | '\x7b' :: rest =>
      (match jsonWs rest with
       | '\x7d' :: r => some (.vDict [], r)
       | _ => (jsonMembers fuel rest).map (fun p => (.vDict p.1, p.2)))
    | rest => jsonNumber rest

/-- JSON array elements up to and including the closing bracket. -/
def jsonElems : Nat → List Char → Option (List PyVal × List Char)
  | 0, _ => none
  | fuel + 1, cs =>
    match jsonVal fuel cs with
    | none => none
    | some (v, rest) =>
      match jsonWs rest with
      | ',' :: r2 => (jsonElems fuel r2).map (fun p => (v :: p.1, p.2))
      | ']' :: r2 => some ([v], r2)
      | _ => none

/-- JSON object members up to and including the closing brace. -/
def jsonMembers : Nat → List Char → Option (List (String × PyVal) × List Char)
  | 0, _ => none
  | fuel + 1, cs =>
    match jsonWs cs with
    | '"' :: rest =>
      (match jsonStringBody rest with
       | none => none
       | some (k, r1) =>
         match jsonWs r1 with
         | ':' :: r2 =>
           (match jsonVal fuel r2 with
            | none => none
            | some (v, r3) =>
              match jsonWs r3 with
              | ',' :: r4 => (jsonMembers fuel r4).map (fun p => ((String.mk k, v) :: p.1, p.2))
              | '\x7d' :: r4 => some ([(String.mk k, v)], r4)
              | _ => none)
         | _ => none)
    | _ => none
end

/-- Model of Python `json.loads`: parse one value, then require only
whitespace to remain; `none` models a raised `JSONDecodeError` (a subclass
of `ValueError`). -/
def json_loads (s : String) : Option PyVal :=
  match jsonVal (2 * s.length + 2) s.toList with
  | some (v, rest) => if (jsonWs rest).isEmpty then some v else none
  | none => none

/-- The distinct `ConfigurationError` raise sites of the resolver, with the
data each message interpolates. -/
inductive ConfigErr where
  | missingNonOptionalKey (key : String)
  | cannotConvert (value : PyVal) (key : String) (target : String)
  | optionsViolation (value : PyVal) (key : String)
  | typeMismatch (key : String) (value : PyVal) (target : String)
  | cannotConvertToList (value : PyVal) (key : String) (target : String)
  | cannotConvertListValue (value : PyVal) (key : String) (target : String)
  | dictMismatch (value : PyVal) (key : String)
  | invalidUriSpec (uri : String)
  | invalidUriUserPass (uri : String)

/-- Outcome of a per-type string converter: success, a raised `ValueError`
(which the engines catch and rewrap), or a raised `ConfigurationError`
(which propagates unchanged, as in the URI converter). -/
inductive ConvFail where
  | valueError
  | cfgError (e : ConfigErr)

/-- `parse_uri_spec`: split on `@` into exactly two parts, then split the
first part on `:` into exactly two parts; any other shape raises
`ConfigurationError` naming the raw text. -/
def parse_uri_spec (uri_spec : String) : Except ConfigErr UriSpec :=
  match pySplit '@' uri_spec.toList with
  | [user_pass, host] =>
    (match pySplit ':' user_pass with
     | [user, password] => .ok ⟨String.mk user, String.mk password, String.mk host⟩
     | _ => .error (.invalidUriUserPass uri_spec))
  | _ => .error (.invalidUriSpec uri_spec)

/-- The mutable state of a `ConfigManager` instance: the raw parameter
mapping supplied at construction (an ordered association list standing for
the Python dict) and the three bookkeeping key sets (insertion-ordered lists
standing for Python sets). -/
structure CMState where
  params : List (String × PyVal)
  requested_keys : List String
  secret_keys : List String
  local_keys : List String

/-- `ConfigManager.__init__`: store the params, start with empty key sets. -/
def newConfigManager (params : List (String × PyVal)) : CMState :=
  ⟨params, [], [], []⟩

/-- Set insertion for the bookkeeping sets (`set.add`). -/
def setAdd (key : String) (s : List String) : List String :=
  if key ∈ s then s else s ++ [key]

/-- `_get`: dictionary lookup in the stored params (`none` models the raised
`KeyError`). -/
def _get (st : CMState) (key : String) : Option PyVal :=
  st.params.lookup key

/-- `_add_key`: record the key in `requested_keys`, and in `secret_keys` /
`local_keys` when the respective flag is set. -/
def _add_key (st : CMState) (key : String) (is_secret is_local : Bool) : CMState :=
  { st with
    requested_keys := setAdd key st.requested_keys
    secret_keys := if is_secret then setAdd key st.secret_keys else st.secret_keys
    local_keys := if is_local then setAdd key st.local_keys else st.local_keys }

/-- `_check_options`: when `options` is truthy (a non-empty list) and the
value is not a member (Python `in`, i.e. `==` against each element), raise
`ConfigurationError`. -/
def _check_options (key : String) (value : PyVal) (options : Option (List PyVal)) :
    Except ConfigErr Unit :=
  match options with
  | none => .ok ()
  | some opts =>
    if opts.isEmpty then .ok ()
    else if pyMem value opts then .ok ()
    else .error (.optionsViolation value key)

/-- `int` as a converter (`type_convert` of `get_int`). -/
def py_int (s : String) : Except ConvFail PyVal :=
  match py_int_parse s with
  | some n => .ok (.vInt n)
  | none => .error .valueError

/-- `lambda x: bool(strtobool(x))` (`type_convert` of `get_boolean`). -/
def py_bool (s : String) : Except ConvFail PyVal :=
  match strtobool s with
  | some n => .ok (.vBool (n != 0))
  | none => .error .valueError

/-- `str` as a converter (`type_convert` of `get_string`); on a string
argument `str` is the identity. -/
def py_str (s : String) : Except ConvFail PyVal :=
  .ok (.vStr s)

/-- `json.loads` as a converter (used by the list engine). -/
def py_json_loads (s : String) : Except ConvFail PyVal :=
  match json_loads s with
  | some v => .ok v
  | none => .error .valueError

/-- `convert_to_dict` from `get_dict`: `json.loads`, then require a mapping,
raising `ValueError` otherwise. -/
def convert_to_dict (s : String) : Except ConvFail PyVal :=
  match json_loads s with
  | some (.vDict d) => .ok (.vDict d)
  | some _ => .error .valueError
  | none => .error .valueError

/-- `self.parse_uri_spec` as a converter: its failures are
`ConfigurationError`s, which the engines do not catch. -/
def py_uri (s : String) : Except ConvFail PyVal :=
  match parse_uri_spec s with
  | .ok u => .ok (.vUri u)
  | .error e => .error (.cfgError e)

/-- `parse_list` from `get_list`: split on commas, strip each part, drop
empty parts. Never raises. -/
def parse_list (v : String) : Except ConvFail PyVal :=
  .ok (.vList ((((pySplit ',' v.toList).map pyStrip).filter
    (fun p => !p.isEmpty)).map (fun p => .vStr (String.mk p))))

/-- `isinstance(·, int)` — in Python `bool` is a subclass of `int`. -/
def isInstInt : PyVal → Bool
  | .vInt _ => true
  | .vBool _ => true
  | _ => false

/-- `isinstance(·, bool)`. -/
def isInstBool : PyVal → Bool
  | .vBool _ => true
  | _ => false

/-- `isinstance(·, str)`. -/
def isInstStr : PyVal → Bool
  | .vStr _ => true
  | _ => false

/-- `isinstance(·, list)`. -/
def isInstList : PyVal → Bool
  | .vList _ => true
  | _ => false

/-- `isinstance(·, Mapping)`. -/
def isInstDict : PyVal → Bool
  | .vDict _ => true
  | _ => false

/-- `isinstance(·, UriSpec)`. -/
def isInstUri : PyVal → Bool
  | .vUri _ => true
  | _ => false

/-- `_get_typed_value`, the generic single-value engine. Absent key: error
when non-optional, else the default with no bookkeeping. String value: add
the key, check options on the raw value, then convert (a `ValueError` from
the converter becomes a conversion `ConfigurationError`; a
`ConfigurationError` from the converter or the options check propagates).
Value already of the target type: add the key, check options, return it.
Anything else: type-mismatch error. The returned state carries the
bookkeeping mutations, which in Python persist even when the call raises. -/
def _get_typed_value (st : CMState) (key : String)
    (target_type : PyVal → Bool) (type_convert : String → Except ConvFail PyVal)
    (target_name : String) (is_optional is_secret is_local : Bool)
    (default : PyVal) (options : Option (List PyVal)) :
    Except ConfigErr PyVal × CMState :=
  match _get st key with
  | none =>
    if !is_optional then (.error (.missingNonOptionalKey key), st)
    else (.ok default, st)
  | some value =>
    match value with
    | .vStr s =>
      let st' := _add_key st key is_secret is_local
      (match _check_options key (.vStr s) options with
       | .error e => (.error e, st')
       | .ok _ =>
         match type_convert s with
         | .ok v => (.ok v, st')
         | .error .valueError => (.error (.cannotConvert (.vStr s) key target_name), st')
         | .error (.cfgError e) => (.error e, st'))
    | v =>
      if target_type v then
        let st' := _add_key st key is_secret is_local
        (match _check_options key v options with
         | .error e => (.error e, st')
         | .ok _ => (.ok v, st'))
      else (.error (.typeMismatch key v target_name), st)

/-- The per-element loop of `_get_typed_list_value`: string elements go
through the converter (`ValueError` becomes a `ConfigurationError` naming the
element; a converter `ConfigurationError` propagates), elements already of
the target type are kept as-is, and anything else raises naming the
element. Order is preserved. -/
def _convert_list (target_type : PyVal → Bool)
    (type_convert : String → Except ConvFail PyVal)
    (key : String) (raise_type : String) : List PyVal → Except ConfigErr (List PyVal)
  | [] => .ok []
  | v :: vs =>
    match v with
    | .vStr s =>
      (match type_convert s with
       | .ok r => (_convert_list target_type type_convert key raise_type vs).map
           (fun rs => r :: rs)
       | .error .valueError => .error (.cannotConvertListValue (.vStr s) key raise_type)
       | .error (.cfgError e) => .error e)
    | w =>
      if target_type w then
        (_convert_list target_type type_convert key raise_type vs).map (fun rs => w :: rs)
      else .error (.cannotConvertListValue w key raise_type)

/-- `_get_typed_list_value`, the generic list engine: fetch through the
single-value engine with target shape `list` and converter `json.loads`;
return the default verbatim when the fetched value is falsy; fail unless it
is a list; otherwise convert the elements. -/
def _get_typed_list_value (st : CMState) (key : String)
    (target_type : PyVal → Bool) (type_convert : String → Except ConvFail PyVal)
    (raise_type : String) (is_optional is_secret is_local : Bool)
    (default : PyVal) (options : Option (List PyVal)) :
    Except ConfigErr PyVal × CMState :=
  match _get_typed_value st key isInstList py_json_loads "list"
      is_optional is_secret is_local default options with
  | (.error e, st') => (.error e, st')
  | (.ok value, st') =>
    if pyFalsy value then (.ok default, st')
    else
      match value with
      | .vList l =>
        (match _convert_list target_type type_convert key raise_type l with
         | .ok r => (.ok (.vList r), st')
         | .error e => (.error e, st'))
      | v => (.error (.cannotConvertToList v key raise_type), st')

/-- `get_int` (single value or list per `is_list`). `get_float` is not
modelled: the value universe of this embedding has no floats and no claim
exercises it. -/
def get_int (st : CMState) (key : String) (is_list is_optional is_secret is_local : Bool)
    (default : PyVal) (options : Option (List PyVal)) : Except ConfigErr PyVal × CMState :=
  if is_list then
    _get_typed_list_value st key isInstInt py_int "int"
      is_optional is_secret is_local default options
  else
    _get_typed_value st key isInstInt py_int "int"
      is_optional is_secret is_local default options

/-- `get_boolean` (single value or list per `is_list`). -/
def get_boolean (st : CMState) (key : String) (is_list is_optional is_secret is_local : Bool)
    (default : PyVal) (options : Option (List PyVal)) : Except ConfigErr PyVal × CMState :=
  if is_list then
    _get_typed_list_value st key isInstBool py_bool "bool"
      is_optional is_secret is_local default options
  else
    _get_typed_value st key isInstBool py_bool "bool"
      is_optional is_secret is_local default options

/-- `get_string` (single value or list per `is_list`). -/
def get_string (st : CMState) (key : String) (is_list is_optional is_secret is_local : Bool)
    (default : PyVal) (options : Option (List PyVal)) : Except ConfigErr PyVal × CMState :=
  if is_list then
    _get_typed_list_value st key isInstStr py_str "str"
      is_optional is_secret is_local default options
  else
    _get_typed_value st key isInstStr py_str "str"
      is_optional is_secret is_local default options

/-- `get_dict`: the list form delegates to the list engine with raise type
`dict`; the single form post-processes the engine's value: a falsy value is
replaced by the default, a non-mapping raises, a mapping is returned. -/
def get_dict (st : CMState) (key : String) (is_list is_optional is_secret is_local : Bool)
    (default : PyVal) (options : Option (List PyVal)) : Except ConfigErr PyVal × CMState :=
  if is_list then
    _get_typed_list_value st key isInstDict convert_to_dict "dict"
      is_optional is_secret is_local default options
  else
    match _get_typed_value st key isInstDict convert_to_dict "Mapping"
        is_optional is_secret is_local default options with
    | (.error e, st') => (.error e, st')
    | (.ok value, st') =>
      if pyFalsy value then (.ok default, st')
      else
        match value with
        | .vDict d => (.ok (.vDict d), st')
        | v => (.error (.dictMismatch v key), st')

/-- `get_uri` (single value or list per `is_list`). -/
def get_uri (st : CMState) (key : String) (is_list is_optional is_secret is_local : Bool)
    (default : PyVal) (options : Option (List PyVal)) : Except ConfigErr PyVal × CMState :=
  if is_list then
    _get_typed_list_value st key isInstUri py_uri "UriSpec"
      is_optional is_secret is_local default options
  else
    _get_typed_value st key isInstUri py_uri "UriSpec"
      is_optional is_secret is_local default options

/-- `get_list`: the comma-separated flavour, a plain single-value fetch with
the comma-split converter. -/
def get_list (st : CMState) (key : String) (is_optional is_secret is_local : Bool)
    (default : PyVal) (options : Option (List PyVal)) : Except ConfigErr PyVal × CMState :=
  _get_typed_value st key isInstList parse_list "list"
    is_optional is_secret is_local default options

/-- A single-quote character, for Python `repr` of strings. -/
def pyQuote : String := String.singleton (Char.ofNat 39)

mutual
/-- Model of Python `repr` on the modelled values (strings are shown
single-quoted; escape handling inside quoted strings is outside the scope of
this embedding; a `UriSpec` renders as its namedtuple repr). -/
def pyRepr : PyVal → String
  | .vNone => "None"
  | .vBool b => if b then "True" else "False"
  | .vInt n => toString n
  | .vStr s => pyQuote ++ s ++ pyQuote
  | .vList l => "[" ++ pyReprSeq l ++ "]"
  | .vDict d => "\x7b" ++ pyReprPairs d ++ "\x7d"
  | .vUri u =>
    "UriSpec(user=" ++ pyQuote ++ u.user ++ pyQuote ++ ", password=" ++ pyQuote ++ u.password ++ pyQuote ++
      ", host=" ++ pyQuote ++ u.host ++ pyQuote ++ ")"

def pyReprSeq : List PyVal → String
  | [] => ""
  | [v] => pyRepr v
  | v :: vs => pyRepr v ++ ", " ++ pyReprSeq vs

def pyReprPairs : List (String × PyVal) → String
  | [] => ""
  | [(k, v)] => pyQuote ++ k ++ pyQuote ++ ": " ++ pyRepr v
  | (k, v) :: ps => pyQuote ++ k ++ pyQuote ++ ": " ++ pyRepr v ++ ", " ++ pyReprPairs ps
end

/-- Model of Python `str` / `"{}".format(value)`: identity on strings,
`repr` otherwise (which coincides with `str` on the modelled shapes). -/
def pyStr : PyVal → String
  | .vStr s => s
  | v => pyRepr v

/-- The loop of `get_requested_params` over the requested keys: skip secret
keys unless included, skip local keys unless included, otherwise read the raw
stored value (`none` models the `KeyError` on a requested key missing from
params, unreachable for states built by the getters) and render it as a
string when `to_str`. -/
def grp_go (params : List (String × PyVal)) (secret_keys local_keys : List String)
    (include_secrets include_locals to_str : Bool) :
    List String → Option (List (String × PyVal))
  | [] => some []
  | k :: ks =>
    if !include_secrets && k ∈ secret_keys then
      grp_go params secret_keys local_keys include_secrets include_locals to_str ks
    else if !include_locals && k ∈ local_keys then
      grp_go params secret_keys local_keys include_secrets include_locals to_str ks
    else
      match params.lookup k with
      | none => none
      | some v =>
        (grp_go params secret_keys local_keys include_secrets include_locals to_str ks).map
          (fun rest => (k, if to_str then .vStr (pyStr v) else v) :: rest)

/-- `get_requested_params`: the mapping built over `requested_keys` with the
secrecy/locality filters and optional string rendering. -/
def get_requested_params (st : CMState) (include_secrets include_locals to_str : Bool) :
    Option (List (String × PyVal)) :=
  grp_go st.params st.secret_keys st.local_keys include_secrets include_locals to_str
    st.requested_keys

/-- `decode_iterations`: the lazily cached property, computed as
`get_int(_POLYAXON_DECODE_ITERATION, is_optional=True, default=1)` (the
cache is modelled by computing on use). -/
def decode_iterations (st : CMState) : Except ConfigErr PyVal × CMState :=
  get_int st "_POLYAXON_DECODE_ITERATION" false true false false (.vInt 1) none

/-- The `iteration or self.decode_iterations` fallback path of `_decode`:
read the cached iteration count and apply the base64+UTF-8 single-pass
decoder (abstracted as `dec`, a stdlib operation) that many times.
`get_int` only ever succeeds with an `int` (or `bool`, a Python `int`)
value, so the final arm is unreachable. -/
def _decode_cached (dec : String → String) (st : CMState) (value : String) :
    Except ConfigErr String × CMState :=
  match decode_iterations st with
  | (.error e, st') => (.error e, st')
  | (.ok v, st') =>
    match pyNumVal v with
    | some m => (.ok (Nat.iterate dec m.toNat value), st')
    | none => (.error (.typeMismatch "_POLYAXON_DECODE_ITERATION" v "int"), st')

/-- `_decode(value, iteration)`: a truthy (non-zero) explicit iteration count
is used directly — `for _ in range(n)` performs `max n 0` passes; a falsy one
(`None` or `0`) falls back to the cached `decode_iterations`. -/
def _decode (dec : String → String) (st : CMState) (value : String)
    (iteration : Option Int) : Except ConfigErr String × CMState :=
  match iteration with
  | some n =>
    if n == 0 then _decode_cached dec st value
    else (.ok (Nat.iterate dec n.toNat value), st)
  | none => _decode_cached dec st value

/-- A call of `_decode` without an explicit iteration count: the parameter
defaults to `3` in the source (`def _decode(self, value, iteration=3)`). -/
def _decode_default_call (dec : String → String) (st : CMState) (value : String) :
    Except ConfigErr String × CMState :=
  _decode dec st value (some 3)

/-- One public typed-getter invocation with its arguments (`get_float` is
outside the float-free value universe of this embedding). -/
inductive GetterCall where
  | cInt (key : String) (is_list is_optional is_secret is_local : Bool)
      (default : PyVal) (options : Option (List PyVal))
  | cBoolean (key : String) (is_list is_optional is_secret is_local : Bool)
      (default : PyVal) (options : Option (List PyVal))
  | cString (key : String) (is_list is_optional is_secret is_local : Bool)
      (default : PyVal) (options : Option (List PyVal))
  | cDict (key : String) (is_list is_optional is_secret is_local : Bool)
      (default : PyVal) (options : Option (List PyVal))
  | cUri (key : String) (is_list is_optional is_secret is_local : Bool)
      (default : PyVal) (options : Option (List PyVal))
  | cList (key : String) (is_optional is_secret is_local : Bool)
      (default : PyVal) (options : Option (List PyVal))

/-- Execute one typed-getter call for its state effect. -/
def applyCall (st : CMState) : GetterCall → CMState
  | .cInt key il io isec iloc d o => (get_int st key il io isec iloc d o).2
  | .cBoolean key il io isec iloc d o => (get_boolean st key il io isec iloc d o).2
  | .cString key il io isec iloc d o => (get_string st key il io isec iloc d o).2
  | .cDict key il io isec iloc d o => (get_dict st key il io isec iloc d o).2
  | .cUri key il io isec iloc d o => (get_uri st key il io isec iloc d o).2
  | .cList key io isec iloc d o => (get_list st key io isec iloc d o).2

/-- Execute a sequence of typed-getter calls. -/
def runCalls (st : CMState) : List GetterCall → CMState
  | [] => st
  | c :: cs => runCalls (applyCall st c) cs

/-- The condition under which a typed-getter call performs bookkeeping: the
lookup finds a value that is a string or already of the target type. -/
def bookkeepingTriggered (st : CMState) (key : String) (target_type : PyVal → Bool) : Bool :=
  match _get st key with
  | some v => v.isStr || target_type v
  | none => false

theorem add_key_params (st : CMState) (key : String) (isec iloc : Bool) :
    (_add_key st key isec iloc).params = st.params := rfl

theorem gtv_snd (tt : PyVal → Bool) (tc : String → Except ConvFail PyVal) (tn : String)
    (st : CMState) (key : String) (io isec iloc : Bool) (d : PyVal)
    (o : Option (List PyVal)) :
    (_get_typed_value st key tt tc tn io isec iloc d o).2 =
      if bookkeepingTriggered st key tt then _add_key st key isec iloc else st := by
  unfold _get_typed_value bookkeepingTriggered
  cases h : _get st key with
  | none => cases io <;> simp
  | some v =>
    cases v with
    | vStr s =>
      simp only [PyVal.isStr, Bool.true_or, if_pos]
      cases hco : _check_options key (.vStr s) o with
      | error e => simp
      | ok u =>
        cases htc : tc s with
        | ok r => simp
        | error f => cases f <;> simp
    | vNone =>
      by_cases htt : tt .vNone
      · simp only [PyVal.isStr, Bool.false_or, htt, if_pos]
        cases hco : _check_options key .vNone o <;> simp
      · simp [PyVal.isStr, htt]
    | vBool b =>
      by_cases htt : tt (.vBool b)
      · simp only [PyVal.isStr, Bool.false_or, htt, if_pos]
        cases hco : _check_options key (.vBool b) o <;> simp
      · simp [PyVal.isStr, htt]
    | vInt n =>
      by_cases htt : tt (.vInt n)
      · simp only [PyVal.isStr, Bool.false_or, htt, if_pos]
        cases hco : _check_options key (.vInt n) o <;> simp
      · simp [PyVal.isStr, htt]
    | vList l =>
      by_cases htt : tt (.vList l)
      · simp only [PyVal.isStr, Bool.false_or, htt, if_pos]
        cases hco : _check_options key (.vList l) o <;> simp
      · simp [PyVal.isStr, htt]
    | vDict dd =>
      by_cases htt : tt (.vDict dd)
      · simp only [PyVal.isStr, Bool.false_or, htt, if_pos]
        cases hco : _check_options key (.vDict dd) o <;> simp
      · simp [PyVal.isStr, htt]
    | vUri u =>
      by_cases htt : tt (.vUri u)
      · simp only [PyVal.isStr, Bool.false_or, htt, if_pos]
        cases hco : _check_options key (.vUri u) o <;> simp
      · simp [PyVal.isStr, htt]

theorem gtlv_snd (tt : PyVal → Bool) (tc : String → Except ConvFail PyVal) (rt : String)
    (st : CMState) (key : String) (io isec iloc : Bool) (d : PyVal)
    (o : Option (List PyVal)) :
    (_get_typed_list_value st key tt tc rt io isec iloc d o).2 =
      (_get_typed_value st key isInstList py_json_loads "list" io isec iloc d o).2 := by
  unfold _get_typed_list_value
  rcases h : _get_typed_value st key isInstList py_json_loads "list" io isec iloc d o with
    ⟨r, st'⟩
  cases r with
  | error e => simp
  | ok value =>
    by_cases hf : pyFalsy value
    · simp [hf]
    · cases value with
      | vList l =>
        cases hc : _convert_list tt tc key rt l <;> simp [hf, hc]
      | vNone => simp [hf]
      | vBool b => simp [hf]
      | vInt n => simp [hf]
      | vStr s => simp [hf]
      | vDict dd => simp [hf]
      | vUri u => simp [hf]

/-- **C1** (amended). A typed-getter call performs bookkeeping exactly when
the lookup finds a value that is a string or already of the target type —
including calls that then fail with a conversion error or an options
violation; absent-key lookups (error or default) and wrong-shape failures
leave `requested_keys`, `secret_keys` and `local_keys` unchanged. The list
engine's bookkeeping is exactly that of its inner single-value fetch with
target shape `list`. -/
theorem c1_bookkeeping_on_present_value (tt : PyVal → Bool)
    (tc : String → Except ConvFail PyVal) (tn rt : String) (st : CMState) (key : String)
    (io isec iloc : Bool) (d : PyVal) (o : Option (List PyVal)) :
    ((_get_typed_value st key tt tc tn io isec iloc d o).2 =
      if bookkeepingTriggered st key tt then _add_key st key isec iloc else st)
    ∧ ((_get_typed_list_value st key tt tc rt io isec iloc d o).2 =
      if bookkeepingTriggered st key isInstList then _add_key st key isec iloc else st) :=
  ⟨gtv_snd tt tc tn st key io isec iloc d o,
   (gtlv_snd tt tc rt st key io isec iloc d o).trans
     (gtv_snd isInstList py_json_loads "list" st key io isec iloc d o)⟩

/-- **C1** counterexample: `get_int` on a stored string `"abc"` fails with a
conversion error, yet the key has been added to `requested_keys` (the claim
says a conversion-failing call leaves the sets unchanged). -/
theorem c1_conversion_failure_still_records_key :
    (get_int (newConfigManager [("k", .vStr "abc")]) "k"
        false false false false .vNone none).1 =
      .error (.cannotConvert (.vStr "abc") "k" "int")
    ∧ (get_int (newConfigManager [("k", .vStr "abc")]) "k"
        false false false false .vNone none).2.requested_keys = ["k"]
    ∧ (newConfigManager [("k", .vStr "abc")]).requested_keys = [] :=
  ⟨rfl, rfl, rfl⟩

/-- **C2** (amended). A truthy explicit iteration count is used as the number
of decode passes; the cached `decode_iterations` (which is `1` when the
`_POLYAXON_DECODE_ITERATION` key is absent) is consulted only for a falsy
explicit count; and a call without an explicit count uses the parameter
default `3`, not `decode_iterations`. -/
theorem c2_decode_pass_count (dec : String → String) (st : CMState) (value : String)
    (n : Int) :
    (n ≠ 0 → _decode dec st value (some n) = (.ok (Nat.iterate dec n.toNat value), st))
    ∧ (_get st "_POLYAXON_DECODE_ITERATION" = none →
        _decode dec st value none = (.ok (Nat.iterate dec 1 value), st))
    ∧ (_decode_default_call dec st value = (.ok (Nat.iterate dec 3 value), st)) := by
  refine ⟨fun hn => ?_, fun habs => ?_, rfl⟩
  · unfold _decode
    simp [hn]
  · unfold _decode _decode_cached decode_iterations get_int _get_typed_value
    simp [habs, pyNumVal]

theorem c2_decode_pass_count_witness :
    _decode (fun s => s ++ "x") (newConfigManager []) "a" (some 2) =
      (.ok "axx", newConfigManager [])
    ∧ _decode (fun s => s ++ "x") (newConfigManager []) "a" none =
      (.ok "ax", newConfigManager []) :=
  ⟨(c2_decode_pass_count (fun s => s ++ "x") (newConfigManager []) "a" 2).1 (by decide),
   (c2_decode_pass_count (fun s => s ++ "x") (newConfigManager []) "a" 2).2.1 rfl⟩

/-- **C2** counterexample: with no `_POLYAXON_DECODE_ITERATION` configured the
cached `decode_iterations` is `1`, yet `_decode` called without an explicit
iteration count performs three decode passes, not one. -/
theorem c2_default_call_ignores_decode_iterations :
    (decode_iterations (newConfigManager [])).1 = .ok (.vInt 1)
    ∧ (_decode_default_call (fun s => s ++ "x") (newConfigManager []) "a").1 = .ok "axxx"
    ∧ Nat.iterate (fun s => s ++ "x") 1 "a" = "ax"
    ∧ ("axxx" : String) ≠ "ax" :=
  ⟨rfl, rfl, rfl, by decide⟩

/-- **C3** (amended). With a non-empty options allow-list and a stored string
value, membership is validated on the *raw stored string* before conversion
(for `get_string` this coincides with the converted value): the call fails
with the options-violation `ConfigurationError` exactly when the raw string
is not a member, and only when the raw string is a member does the result
become that of the conversion. -/
theorem c3_options_checked_on_raw_value (tt : PyVal → Bool)
    (tc : String → Except ConvFail PyVal) (tn : String) (st : CMState) (key : String)
    (io isec iloc : Bool) (d : PyVal) (opts : List PyVal) (s : String)
    (hlook : _get st key = some (.vStr s)) (hne : opts ≠ []) :
    (pyMem (.vStr s) opts = false →
      (_get_typed_value st key tt tc tn io isec iloc d (some opts)).1 =
        .error (.optionsViolation (.vStr s) key))
    ∧ (pyMem (.vStr s) opts = true →
      (_get_typed_value st key tt tc tn io isec iloc d (some opts)).1 =
        (match tc s with
         | .ok v => .ok v
         | .error .valueError => .error (.cannotConvert (.vStr s) key tn)
         | .error (.cfgError e) => .error e)) := by
  cases opts with
  | nil => exact absurd rfl hne
  | cons a as =>
    constructor
    · intro hmem
      unfold _get_typed_value _check_options
      simp [hlook, hmem]
    · intro hmem
      unfold _get_typed_value _check_options
      simp only [hlook]
      cases htc : tc s with
      | ok v => simp [hmem, htc]
      | error f => cases f <;> simp [hmem, htc]

theorem c3_options_checked_on_raw_value_witness :
    (_get_typed_value (newConfigManager [("k", .vStr "1")]) "k" isInstInt py_int "int"
        false false false .vNone (some [.vInt 1, .vInt 2])).1 =
      .error (.optionsViolation (.vStr "1") "k") :=
  (c3_options_checked_on_raw_value isInstInt py_int "int"
    (newConfigManager [("k", .vStr "1")]) "k" false false false .vNone
    [.vInt 1, .vInt 2] "1" rfl (List.cons_ne_nil _ _)).1 rfl

/-- **C3** counterexample: `get_int` on `k -> "1"` with options `[1, 2]`
fails with an options violation even though the converted value `1` *is* a
member of the options — the code checks the raw string `"1"`, not the
converted value as the claim states. -/
theorem c3_options_reject_converted_member :
    (get_int (newConfigManager [("k", .vStr "1")]) "k" false false false false .vNone
      (some [.vInt 1, .vInt 2])).1 = .error (.optionsViolation (.vStr "1") "k")
    ∧ py_int "1" = .ok (.vInt 1)
    ∧ pyMem (.vInt 1) [.vInt 1, .vInt 2] = true :=
  ⟨rfl, rfl, rfl⟩

/-- **C4** (amended). For a key absent from the raw mapping: every typed
getter with `is_optional` false raises the missing-key `ConfigurationError`
(the generic engine, which every getter enters, does); with `is_optional`
true, `get_int`, `get_boolean`, `get_string`, `get_uri` and `get_list`
return the supplied default unchanged with no bookkeeping, while `get_dict`
post-processes the engine's default — a falsy or mapping default is returned
unchanged, but a truthy non-mapping default raises — and list-form getters
return the default unchanged only when it is falsy/empty, otherwise passing
it through the list engine's element processing. -/
theorem c4_absent_key_behavior (st : CMState) (key : String) (isec iloc : Bool)
    (d : PyVal) (o : Option (List PyVal)) (habs : _get st key = none) :
    (∀ (tt : PyVal → Bool) (tc : String → Except ConvFail PyVal) (tn : String),
      _get_typed_value st key tt tc tn false isec iloc d o =
        (.error (.missingNonOptionalKey key), st))
    ∧ (∀ (tt : PyVal → Bool) (tc : String → Except ConvFail PyVal) (tn : String),
      _get_typed_value st key tt tc tn true isec iloc d o = (.ok d, st))
    ∧ get_int st key false true isec iloc d o = (.ok d, st)
    ∧ get_boolean st key false true isec iloc d o = (.ok d, st)
    ∧ get_string st key false true isec iloc d o = (.ok d, st)
    ∧ get_uri st key false true isec iloc d o = (.ok d, st)
    ∧ get_list st key true isec iloc d o = (.ok d, st)
    ∧ (pyFalsy d = true → get_dict st key false true isec iloc d o = (.ok d, st))
    ∧ (∀ dd, d = .vDict dd → get_dict st key false true isec iloc d o = (.ok d, st))
    ∧ (pyFalsy d = false → isInstDict d = false →
        get_dict st key false true isec iloc d o = (.error (.dictMismatch d key), st))
    ∧ (∀ (tt : PyVal → Bool) (tc : String → Except ConvFail PyVal) (rt : String),
        pyFalsy d = true →
        _get_typed_list_value st key tt tc rt true isec iloc d o = (.ok d, st)) := by
  have hmiss : ∀ (tt : PyVal → Bool) (tc : String → Except ConvFail PyVal) (tn : String),
      _get_typed_value st key tt tc tn false isec iloc d o =
        (.error (.missingNonOptionalKey key), st) := by
    intro tt tc tn
    unfold _get_typed_value
    simp [habs]
  have hok : ∀ (tt : PyVal → Bool) (tc : String → Except ConvFail PyVal) (tn : String),
      _get_typed_value st key tt tc tn true isec iloc d o = (.ok d, st) := by
    intro tt tc tn
    unfold _get_typed_value
    simp [habs]
  have hdict : get_dict st key false true isec iloc d o =
      (if pyFalsy d = true then ((.ok d : Except ConfigErr PyVal), st)
       else match d with
         | .vDict dd => (.ok (.vDict dd), st)
         | v => (.error (.dictMismatch v key), st)) := by
    unfold get_dict
    rw [if_neg (by simp), hok isInstDict convert_to_dict "Mapping"]
    cases d <;> rfl
  refine ⟨hmiss, hok, ?_, ?_, ?_, ?_, ?_, fun hf => ?_, fun dd hdd => ?_,
    fun hf hnd => ?_, fun tt tc rt hf => ?_⟩
  · unfold get_int
    rw [if_neg (by simp)]
    exact hok isInstInt py_int "int"
  · unfold get_boolean
    rw [if_neg (by simp)]
    exact hok isInstBool py_bool "bool"
  · unfold get_string
    rw [if_neg (by simp)]
    exact hok isInstStr py_str "str"
  · unfold get_uri
    rw [if_neg (by simp)]
    exact hok isInstUri py_uri "UriSpec"
  · unfold get_list
    exact hok isInstList parse_list "list"
  · rw [hdict, if_pos hf]
  · subst hdd
    rw [hdict]
    split
    · rfl
    · rfl
  · rw [hdict, if_neg (by simp [hf])]
    cases d with
    | vDict dd => simp [isInstDict] at hnd
    | vNone => rfl
    | vBool b => rfl
    | vInt n => rfl
    | vStr s => rfl
    | vList l => rfl
    | vUri u => rfl
  · unfold _get_typed_list_value
    rw [hok isInstList py_json_loads "list"]
    simp [hf]

theorem c4_absent_key_behavior_witness :
    _get_typed_value (newConfigManager []) "k" isInstInt py_int "int"
        false false false (.vInt 9) none =
      (.error (.missingNonOptionalKey "k"), newConfigManager [])
    ∧ get_string (newConfigManager []) "k" false true false false (.vInt 9) none =
      (.ok (.vInt 9), newConfigManager [])
    ∧ get_dict (newConfigManager []) "k" false true false false (.vInt 9) none =
      (.error (.dictMismatch (.vInt 9) "k"), newConfigManager [])
    ∧ get_dict (newConfigManager []) "k" false true false false .vNone none =
      (.ok .vNone, newConfigManager [])
    ∧ get_dict (newConfigManager []) "k" false true false false
        (.vDict [("a", .vInt 1)]) none =
      (.ok (.vDict [("a", .vInt 1)]), newConfigManager [])
    ∧ _get_typed_list_value (newConfigManager []) "k" isInstInt py_int "int"
        true false false .vNone none = (.ok .vNone, newConfigManager []) :=
  ⟨(c4_absent_key_behavior (newConfigManager []) "k" false false (.vInt 9) none rfl).1
      isInstInt py_int "int",
   (c4_absent_key_behavior (newConfigManager []) "k" false false (.vInt 9)
      none rfl).2.2.2.2.1,
   (c4_absent_key_behavior (newConfigManager []) "k" false false (.vInt 9)
      none rfl).2.2.2.2.2.2.2.2.2.1 rfl rfl,
   (c4_absent_key_behavior (newConfigManager []) "k" false false .vNone
      none rfl).2.2.2.2.2.2.2.1 rfl,
   (c4_absent_key_behavior (newConfigManager []) "k" false false
      (.vDict [("a", .vInt 1)]) none rfl).2.2.2.2.2.2.2.2.1 [("a", .vInt 1)] rfl,
   (c4_absent_key_behavior (newConfigManager []) "k" false false .vNone
      none rfl).2.2.2.2.2.2.2.2.2.2 isInstInt py_int "int" rfl⟩

/-- **C4** counterexample: an optional list-form `get_int` on an absent key
with default `["5"]` returns `[5]` — the default is passed through the list
engine's element conversion, not returned unchanged as the claim states. -/
theorem c4_list_default_not_returned_verbatim :
    (get_int (newConfigManager []) "k" true true false false
      (.vList [.vStr "5"]) none).1 = .ok (.vList [.vInt 5])
    ∧ PyVal.vList [.vInt 5] ≠ .vList [.vStr "5"] :=
  ⟨rfl, by simp⟩

theorem isStr_eq_true_iff (v : PyVal) : v.isStr = true ↔ ∃ s, v = .vStr s := by
  cases v <;> simp [PyVal.isStr]

theorem convert_list_cons_str (tt : PyVal → Bool) (tc : String → Except ConvFail PyVal)
    (key rt : String) (s : String) (vs : List PyVal) :
    _convert_list tt tc key rt (PyVal.vStr s :: vs) =
      (match tc s with
       | .ok r => (_convert_list tt tc key rt vs).map (fun rs => r :: rs)
       | .error .valueError => .error (.cannotConvertListValue (.vStr s) key rt)
       | .error (.cfgError e) => .error e) := rfl

theorem convert_list_cons_nonstr (tt : PyVal → Bool) (tc : String → Except ConvFail PyVal)
    (key rt : String) (v : PyVal) (vs : List PyVal) (hv : v.isStr = false) :
    _convert_list tt tc key rt (v :: vs) =
      (if tt v then (_convert_list tt tc key rt vs).map (fun rs => v :: rs)
       else .error (.cannotConvertListValue v key rt)) := by
  cases v with
  | vStr s => simp [PyVal.isStr] at hv
  | vNone => rfl
  | vBool b => rfl
  | vInt n => rfl
  | vList l => rfl
  | vDict d => rfl
  | vUri u => rfl

theorem convert_list_forall2 (tt : PyVal → Bool) (tc : String → Except ConvFail PyVal)
    (key rt : String) : ∀ (l r : List PyVal),
    _convert_list tt tc key rt l = .ok r →
    List.Forall₂ (fun a b => (∀ s, a = PyVal.vStr s → tc s = .ok b) ∧
      (a.isStr = false → b = a ∧ tt a = true)) l r := by
  intro l
  induction l with
  | nil =>
    intro r h
    simp only [_convert_list, Except.ok.injEq] at h
    subst h
    exact List.Forall₂.nil
  | cons v vs ih =>
    intro r h
    by_cases hv : v.isStr = true
    · obtain ⟨s, rfl⟩ := (isStr_eq_true_iff v).mp hv
      rw [convert_list_cons_str] at h
      cases htc : tc s with
      | ok w =>
        rw [htc] at h
        cases hrec : _convert_list tt tc key rt vs with
        | ok rs =>
          rw [hrec] at h
          simp only [Except.map, Except.ok.injEq] at h
          subst h
          refine List.Forall₂.cons ⟨fun s' hs' => ?_, fun hfalse => ?_⟩ (ih rs hrec)
          · cases hs'
            exact htc
          · simp [PyVal.isStr] at hfalse
        | error e =>
          rw [hrec] at h
          simp [Except.map] at h
      | error f =>
        cases f with
        | valueError => rw [htc] at h; simp at h
        | cfgError e => rw [htc] at h; simp at h
    · have hv' : v.isStr = false := by simpa using hv
      rw [convert_list_cons_nonstr tt tc key rt v vs hv'] at h
      by_cases htt : tt v = true
      · rw [if_pos htt] at h
        cases hrec : _convert_list tt tc key rt vs with
        | ok rs =>
          rw [hrec] at h
          simp only [Except.map, Except.ok.injEq] at h
          subst h
          refine List.Forall₂.cons ⟨fun s' hs' => ?_, fun _ => ⟨rfl, htt⟩⟩ (ih rs hrec)
          · rw [hs'] at hv'
            simp [PyVal.isStr] at hv'
        | error e =>
          rw [hrec] at h
          simp [Except.map] at h
      · rw [if_neg (by simpa using htt)] at h
        simp at h

theorem convert_list_error_elem (tt : PyVal → Bool) (tc : String → Except ConvFail PyVal)
    (key rt : String) (hcfg : ∀ s e, tc s ≠ .error (.cfgError e)) :
    ∀ (l : List PyVal) (v : PyVal),
    _convert_list tt tc key rt l = .error (.cannotConvertListValue v key rt) →
    v ∈ l ∧ ((∃ s, v = PyVal.vStr s ∧ tc s = .error .valueError) ∨
      (v.isStr = false ∧ tt v = false)) := by
  intro l
  induction l with
  | nil =>
    intro v h
    simp [_convert_list] at h
  | cons w vs ih =>
    intro v h
    by_cases hw : w.isStr = true
    · obtain ⟨s, rfl⟩ := (isStr_eq_true_iff w).mp hw
      rw [convert_list_cons_str] at h
      cases htc : tc s with
      | ok r =>
        rw [htc] at h
        cases hrec : _convert_list tt tc key rt vs with
        | ok rs => rw [hrec] at h; simp [Except.map] at h
        | error e =>
          rw [hrec] at h
          simp only [Except.map, Except.error.injEq] at h
          subst h
          obtain ⟨hmem, hrest⟩ := ih v hrec
          exact ⟨List.mem_cons_of_mem _ hmem, hrest⟩
      | error f =>
        cases f with
        | valueError =>
          rw [htc] at h
          simp only [Except.error.injEq, ConfigErr.cannotConvertListValue.injEq] at h
          obtain ⟨hv, -, -⟩ := h
          subst hv
          exact ⟨List.mem_cons_self _ _, Or.inl ⟨s, rfl, htc⟩⟩
        | cfgError e => exact absurd htc (hcfg s e)
    · have hw' : w.isStr = false := by simpa using hw
      rw [convert_list_cons_nonstr tt tc key rt w vs hw'] at h
      by_cases htt : tt w = true
      · rw [if_pos htt] at h
        cases hrec : _convert_list tt tc key rt vs with
        | ok rs => rw [hrec] at h; simp [Except.map] at h
        | error e =>
          rw [hrec] at h
          simp only [Except.map, Except.error.injEq] at h
          subst h
          obtain ⟨hmem, hrest⟩ := ih v hrec
          exact ⟨List.mem_cons_of_mem _ hmem, hrest⟩
      · rw [if_neg (by simpa using htt)] at h
        simp only [Except.error.injEq, ConfigErr.cannotConvertListValue.injEq] at h
        obtain ⟨hv, -, -⟩ := h
        subst hv
        exact ⟨List.mem_cons_self _ _, Or.inr ⟨hw', by simpa using htt⟩⟩

theorem gtlv_falsy_default (tt : PyVal → Bool) (tc : String → Except ConvFail PyVal)
    (rt : String) (st : CMState) (key : String) (io isec iloc : Bool) (d : PyVal)
    (o : Option (List PyVal)) (v : PyVal) (st' : CMState)
    (hfetch : _get_typed_value st key isInstList py_json_loads "list" io isec iloc d o =
      (.ok v, st'))
    (hf : pyFalsy v = true) :
    _get_typed_list_value st key tt tc rt io isec iloc d o = (.ok d, st') := by
  unfold _get_typed_list_value
  rw [hfetch]
  simp [hf]

/-- **C6**. The typed-list engine returns the supplied default verbatim (even
a non-list default) whenever the fetched value is falsy/empty; on a non-falsy
fetched list it produces a list in input order where every string element is
converted by the per-element converter and every element already of the
target type is kept as-is; an element-level failure is a
`ConfigurationError` naming the specific offending element (for converters
whose failures are `ValueError`s, as in all non-URI getters); concretely,
an int-list fetch of `"[1,2,3]"` yields `[1,2,3]` and of `"[1,\"x\"]"` fails
naming `"x"`. -/
theorem c6_typed_list_engine :
    (∀ (tt : PyVal → Bool) (tc : String → Except ConvFail PyVal) (rt : String)
       (st : CMState) (key : String) (io isec iloc : Bool) (d : PyVal)
       (o : Option (List PyVal)) (v : PyVal) (st' : CMState),
       _get_typed_value st key isInstList py_json_loads "list" io isec iloc d o =
         (.ok v, st') → pyFalsy v = true →
       _get_typed_list_value st key tt tc rt io isec iloc d o = (.ok d, st'))
    ∧ (∀ (tt : PyVal → Bool) (tc : String → Except ConvFail PyVal) (key rt : String)
       (l r : List PyVal), _convert_list tt tc key rt l = .ok r →
       List.Forall₂ (fun a b => (∀ s, a = PyVal.vStr s → tc s = .ok b) ∧
         (a.isStr = false → b = a ∧ tt a = true)) l r)
    ∧ (∀ (tt : PyVal → Bool) (tc : String → Except ConvFail PyVal) (key rt : String)
       (l : List PyVal) (v : PyVal), (∀ s e, tc s ≠ .error (.cfgError e)) →
       _convert_list tt tc key rt l = .error (.cannotConvertListValue v key rt) →
       v ∈ l ∧ ((∃ s, v = PyVal.vStr s ∧ tc s = .error .valueError) ∨
         (v.isStr = false ∧ tt v = false)))
    ∧ ((get_int (newConfigManager [("k", .vStr "[1,2,3]")]) "k" true false false false
        .vNone none).1 = .ok (.vList [.vInt 1, .vInt 2, .vInt 3]))
    ∧ ((get_int (newConfigManager [("k", .vStr "[1,\"x\"]")]) "k" true false false false
        .vNone none).1 = .error (.cannotConvertListValue (.vStr "x") "k" "int")) :=
  ⟨fun tt tc rt st key io isec iloc d o v st' hfetch hf =>
    gtlv_falsy_default tt tc rt st key io isec iloc d o v st' hfetch hf,
   fun tt tc key rt l r h => convert_list_forall2 tt tc key rt l r h,
   fun tt tc key rt l v hcfg h => convert_list_error_elem tt tc key rt hcfg l v h,
   rfl, rfl⟩

theorem c6_typed_list_engine_witness :
    _get_typed_list_value (newConfigManager [("k", .vStr "[]")]) "k" isInstInt py_int "int"
        false false false (.vInt 7) none =
      (.ok (.vInt 7), ⟨[("k", .vStr "[]")], ["k"], [], []⟩)
    ∧ List.Forall₂ (fun a b => (∀ s, a = PyVal.vStr s → py_int s = .ok b) ∧
        (a.isStr = false → b = a ∧ isInstInt a = true))
        [PyVal.vStr "2", PyVal.vInt 3] [PyVal.vInt 2, PyVal.vInt 3] :=
  ⟨c6_typed_list_engine.1 isInstInt py_int "int" (newConfigManager [("k", .vStr "[]")])
    "k" false false false (.vInt 7) none (.vList []) _ rfl rfl,
   c6_typed_list_engine.2.1 isInstInt py_int "k" "int"
    [PyVal.vStr "2", PyVal.vInt 3] [PyVal.vInt 2, PyVal.vInt 3] rfl⟩

theorem strtobool_eq_some_one (s : String) :
    strtobool s = some 1 ↔ pyLower s ∈ (["y", "yes", "t", "true", "on", "1"] : List String) := by
  unfold strtobool
  dsimp only
  split
  · next hcond =>
    simp only [Bool.or_eq_true, decide_eq_true_eq] at hcond
    simp only [List.mem_cons, List.not_mem_nil, or_false, true_iff]
    tauto
  · next hcond =>
    simp only [Bool.or_eq_true, decide_eq_true_eq, not_or] at hcond
    split
    · constructor
      · intro hh; exact absurd hh (by simp)
      · intro hmem
        simp only [List.mem_cons, List.not_mem_nil, or_false] at hmem
        tauto
    · constructor
      · intro hh; exact absurd hh (by simp)
      · intro hmem
        simp only [List.mem_cons, List.not_mem_nil, or_false] at hmem
        tauto

theorem strtobool_eq_some_zero (s : String) :
    strtobool s = some 0 ↔ pyLower s ∈ (["n", "no", "f", "false", "off", "0"] : List String) := by
  unfold strtobool
  dsimp only
  split
  · next hcond =>
    simp only [Bool.or_eq_true, decide_eq_true_eq] at hcond
    constructor
    · intro hh; exact absurd hh (by simp)
    · intro hmem
      simp only [List.mem_cons, List.not_mem_nil, or_false] at hmem
      rcases hmem with h | h | h | h | h | h <;> rw [h] at hcond <;> simp at hcond
  · next hcond =>
    split
    · next hcond2 =>
      simp only [Bool.or_eq_true, decide_eq_true_eq] at hcond2
      simp only [List.mem_cons, List.not_mem_nil, or_false, true_iff]
      tauto
    · next hcond2 =>
      simp only [Bool.or_eq_true, decide_eq_true_eq, not_or] at hcond2
      constructor
      · intro hh; exact absurd hh (by simp)
      · intro hmem
        simp only [List.mem_cons, List.not_mem_nil, or_false] at hmem
        tauto

/-- **C7**. `get_boolean` on a stored string follows the platform boolean
convention (`strtobool` after lowercasing): the truthy spellings
`y/yes/t/true/on/1` yield `True`, the falsy spellings `n/no/f/false/off/0`
yield `False`, and any other string (such as `"maybe"`) raises the
conversion-failure `ConfigurationError`. -/
theorem c7_get_boolean_spellings (st : CMState) (key : String) (io isec iloc : Bool)
    (d : PyVal) (s : String) (hlook : _get st key = some (.vStr s)) :
    (strtobool s = some 1 →
      (get_boolean st key false io isec iloc d none).1 = .ok (.vBool true))
    ∧ (strtobool s = some 0 →
      (get_boolean st key false io isec iloc d none).1 = .ok (.vBool false))
    ∧ (strtobool s = none →
      (get_boolean st key false io isec iloc d none).1 =
        .error (.cannotConvert (.vStr s) key "bool"))
    ∧ (strtobool s = some 1 ↔
        pyLower s ∈ (["y", "yes", "t", "true", "on", "1"] : List String))
    ∧ (strtobool s = some 0 ↔
        pyLower s ∈ (["n", "no", "f", "false", "off", "0"] : List String)) := by
  refine ⟨fun h1 => ?_, fun h0 => ?_, fun hn => ?_,
    strtobool_eq_some_one s, strtobool_eq_some_zero s⟩
  · unfold get_boolean _get_typed_value _check_options py_bool
    simp [hlook, h1]
  · unfold get_boolean _get_typed_value _check_options py_bool
    simp [hlook, h0]
  · unfold get_boolean _get_typed_value _check_options py_bool
    simp [hlook, hn]

theorem c7_get_boolean_spellings_witness :
    (get_boolean (newConfigManager [("k", .vStr "TRUE")]) "k"
        false false false false .vNone none).1 = .ok (.vBool true)
    ∧ (get_boolean (newConfigManager [("m", .vStr "no")]) "m"
        false false false false .vNone none).1 = .ok (.vBool false)
    ∧ (get_boolean (newConfigManager [("m", .vStr "maybe")]) "m"
        false false false false .vNone none).1 =
      .error (.cannotConvert (.vStr "maybe") "m" "bool") :=
  ⟨(c7_get_boolean_spellings (newConfigManager [("k", .vStr "TRUE")]) "k"
      false false false .vNone "TRUE" rfl).1 rfl,
   (c7_get_boolean_spellings (newConfigManager [("m", .vStr "no")]) "m"
      false false false .vNone "no" rfl).2.1 rfl,
   (c7_get_boolean_spellings (newConfigManager [("m", .vStr "maybe")]) "m"
      false false false .vNone "maybe" rfl).2.2.1 rfl⟩

/-- **C10** (amended). Non-list `get_dict` replaces any falsy value passing
the generic engine — in particular a stored empty mapping — by the supplied
default, so with a falsy default (such as the usual `None`) its return value
coincides with that of an optional lookup of an absent key; the two cases
nevertheless remain distinguishable in general, since an absent-key optional
call post-processes a truthy non-mapping default into an error and the
present-key call still records the key in `requested_keys`. -/
theorem c10_get_dict_falsy_returns_default (st : CMState) (key : String)
    (io isec iloc : Bool) (d : PyVal) :
    (∀ (v : PyVal) (st' : CMState),
      _get_typed_value st key isInstDict convert_to_dict "Mapping" io isec iloc d none =
        (.ok v, st') → pyFalsy v = true →
      (get_dict st key false io isec iloc d none).1 = .ok d)
    ∧ (_get st key = some (.vDict []) →
      (get_dict st key false io isec iloc d none).1 = .ok d)
    ∧ (pyFalsy d = true → _get st key = none →
      (get_dict st key false true isec iloc d none).1 = .ok d) := by
  have hpost : ∀ (io2 : Bool) (v : PyVal) (st' : CMState),
      _get_typed_value st key isInstDict convert_to_dict "Mapping" io2 isec iloc d none =
        (.ok v, st') → pyFalsy v = true →
      (get_dict st key false io2 isec iloc d none).1 = .ok d := by
    intro io2 v st' hfetch hf
    unfold get_dict
    rw [if_neg (by simp)]
    rw [hfetch]
    simp [hf]
  refine ⟨hpost io, fun hlook => ?_, fun hfd habs => ?_⟩
  · refine hpost io (.vDict []) (_add_key st key isec iloc) ?_ rfl
    unfold _get_typed_value _check_options
    simp [hlook, isInstDict]
  · refine hpost true d st ?_ hfd
    unfold _get_typed_value
    simp [habs]

theorem c10_get_dict_falsy_returns_default_witness :
    (get_dict (newConfigManager [("k", .vDict [])]) "k" false false false false
      (.vInt 7) none).1 = .ok (.vInt 7)
    ∧ (get_dict (newConfigManager []) "k" false true false false .vNone none).1 =
      .ok .vNone :=
  ⟨(c10_get_dict_falsy_returns_default (newConfigManager [("k", .vDict [])]) "k"
      false false false (.vInt 7)).2.1 rfl,
   (c10_get_dict_falsy_returns_default (newConfigManager []) "k"
      false false false .vNone).2.2 rfl rfl⟩

/-- **C10** counterexample to the indistinguishability consequence: with the
truthy non-mapping default `5`, `get_dict` on a present-but-empty dict
returns `5`, while the same optional call on an absent key raises — the two
situations are observably different at the public interface. -/
theorem c10_empty_dict_distinguishable_from_absent :
    (get_dict (newConfigManager [("k", .vDict [])]) "k" false true false false
      (.vInt 5) none).1 = .ok (.vInt 5)
    ∧ (get_dict (newConfigManager []) "k" false true false false
      (.vInt 5) none).1 = .error (.dictMismatch (.vInt 5) "k")
    ∧ (Except.ok (.vInt 5) : Except ConfigErr PyVal) ≠
      .error (.dictMismatch (.vInt 5) "k") :=
  ⟨rfl, rfl, by simp⟩

theorem pySplit_ne_nil (sep : Char) : ∀ l : List Char, pySplit sep l ≠ [] := by
  intro l
  induction l with
  | nil => simp [pySplit]
  | cons c cs ih =>
    by_cases hc : c = sep
    · simp [pySplit, hc]
    · simp only [pySplit, if_neg hc]
      cases h : pySplit sep cs with
      | nil => simp
      | cons p ps => simp

theorem pySplit_length (sep : Char) : ∀ l : List Char,
    (pySplit sep l).length = l.count sep + 1 := by
  intro l
  induction l with
  | nil => simp [pySplit]
  | cons c cs ih =>
    by_cases hc : c = sep
    · subst hc
      simp [pySplit, List.count_cons_self, ih]
    · simp only [pySplit, if_neg hc]
      cases h : pySplit sep cs with
      | nil => exact absurd h (pySplit_ne_nil sep cs)
      | cons p ps =>
        rw [h] at ih
        simp only [List.length_cons] at ih ⊢
        rw [List.count_cons]
        simp only [beq_iff_eq, if_neg hc, add_zero]
        omega

theorem pySplit_count_zero (sep : Char) : ∀ l : List Char,
    l.count sep = 0 → pySplit sep l = [l] := by
  intro l
  induction l with
  | nil => intro _; rfl
  | cons c cs ih =>
    intro h
    have hc : c ≠ sep := by
      intro hceq
      subst hceq
      rw [List.count_cons_self] at h
      omega
    have hcs : cs.count sep = 0 := by
      rw [List.count_cons] at h
      omega
    simp only [pySplit, if_neg hc, ih hcs]

theorem pySplit_count_one (sep : Char) : ∀ l : List Char, l.count sep = 1 →
    pySplit sep l =
      [l.takeWhile (fun c => c != sep), (l.dropWhile (fun c => c != sep)).tail] := by
  intro l
  induction l with
  | nil => intro h; simp at h
  | cons c cs ih =>
    intro h
    by_cases hc : c = sep
    · subst hc
      have hcs : cs.count c = 0 := by
        rw [List.count_cons_self] at h
        omega
      simp only [pySplit, if_pos rfl, pySplit_count_zero c cs hcs,
        List.takeWhile_cons, List.dropWhile_cons]
      simp
    · have hcs : cs.count sep = 1 := by
        rw [List.count_cons] at h
        simp only [beq_iff_eq, if_neg hc, add_zero] at h
        exact h
      simp only [pySplit, if_neg hc, ih hcs, List.takeWhile_cons, List.dropWhile_cons,
        bne_iff_ne, ne_eq, hc, not_false_eq_true, if_pos, ite_true]
      simp [hc]

/-- **C5**. `parse_uri_spec` succeeds exactly on inputs with exactly one `@`
whose part before the `@` has exactly one `:`, in which case it returns the
`UriSpec` made of the `user`/`password`/`host` pieces cut at those two
separators; every other input fails with a `ConfigurationError` naming the
raw text. -/
theorem c5_parse_uri_spec_grammar (s : String) :
    ((∃ u, parse_uri_spec s = .ok u) ↔
      (s.toList.count '@' = 1 ∧ (s.toList.takeWhile (fun c => c != '@')).count ':' = 1))
    ∧ (s.toList.count '@' = 1 →
       (s.toList.takeWhile (fun c => c != '@')).count ':' = 1 →
        parse_uri_spec s = .ok
          ⟨String.mk ((s.toList.takeWhile (fun c => c != '@')).takeWhile (fun c => c != ':')),
           String.mk (((s.toList.takeWhile (fun c => c != '@')).dropWhile
             (fun c => c != ':')).tail),
           String.mk ((s.toList.dropWhile (fun c => c != '@')).tail)⟩)
    ∧ (¬(s.toList.count '@' = 1 ∧
         (s.toList.takeWhile (fun c => c != '@')).count ':' = 1) →
        ∃ e, parse_uri_spec s = .error e) := by
  have hval : s.toList.count '@' = 1 →
      (s.toList.takeWhile (fun c => c != '@')).count ':' = 1 →
      parse_uri_spec s = .ok
        ⟨String.mk ((s.toList.takeWhile (fun c => c != '@')).takeWhile (fun c => c != ':')),
         String.mk (((s.toList.takeWhile (fun c => c != '@')).dropWhile
           (fun c => c != ':')).tail),
         String.mk ((s.toList.dropWhile (fun c => c != '@')).tail)⟩ := by
    intro h1 h2
    unfold parse_uri_spec
    rw [pySplit_count_one '@' s.toList h1]
    dsimp only
    rw [pySplit_count_one ':' _ h2]
  have hiff : (∃ u, parse_uri_spec s = .ok u) ↔
      (s.toList.count '@' = 1 ∧
        (s.toList.takeWhile (fun c => c != '@')).count ':' = 1) := by
    constructor
    · rintro ⟨u, hu⟩
      unfold parse_uri_spec at hu
      split at hu
      · next user_pass host heq =>
        have hlen : (pySplit '@' s.toList).length = 2 := by rw [heq]; rfl
        rw [pySplit_length] at hlen
        have h1 : s.toList.count '@' = 1 := by omega
        have heq' := pySplit_count_one '@' s.toList h1
        rw [heq] at heq'
        simp only [List.cons.injEq, and_true] at heq'
        obtain ⟨hup, -⟩ := heq'
        refine ⟨h1, ?_⟩
        split at hu
        · next user password heq3 =>
          have hlen2 : (pySplit ':' user_pass).length = 2 := by rw [heq3]; rfl
          rw [pySplit_length] at hlen2
          rw [← hup]
          omega
        · next => exact absurd hu (by simp)
      · next => exact absurd hu (by simp)
    · rintro ⟨h1, h2⟩
      exact ⟨_, hval h1 h2⟩
  refine ⟨hiff, hval, fun hn => ?_⟩
  cases hres : parse_uri_spec s with
  | ok u => exact absurd (hiff.mp ⟨u, hres⟩) hn
  | error e => exact ⟨e, rfl⟩

theorem c5_parse_uri_spec_grammar_witness :
    parse_uri_spec "alice:secret@db.local" = .ok ⟨"alice", "secret", "db.local"⟩
    ∧ (∃ e, parse_uri_spec "alice@db.local" = .error e)
    ∧ (∃ e, parse_uri_spec "alice:sec:ret@db.local" = .error e) :=
  ⟨(c5_parse_uri_spec_grammar "alice:secret@db.local").2.1 (by decide) (by decide),
   (c5_parse_uri_spec_grammar "alice@db.local").2.2 (by decide),
   (c5_parse_uri_spec_grammar "alice:sec:ret@db.local").2.2 (by decide)⟩

theorem grp_go_spec (P : List (String × PyVal)) (S L : List String)
    (incS incL toStr : Bool) : ∀ (ks : List String) (res : List (String × PyVal)),
    grp_go P S L incS incL toStr ks = some res →
    ((∀ k v, (k, v) ∈ res →
      k ∈ ks ∧ (incS = true ∨ k ∉ S) ∧ (incL = true ∨ k ∉ L) ∧
      ∃ w, P.lookup k = some w ∧ v = (if toStr then .vStr (pyStr w) else w))
    ∧ (∀ k, k ∈ ks → (incS = true ∨ k ∉ S) → (incL = true ∨ k ∉ L) →
      ∃ v, (k, v) ∈ res)) := by
  intro ks
  induction ks with
  | nil =>
    intro res h
    simp only [grp_go, Option.some.injEq] at h
    subst h
    constructor
    · intro k v hmem
      simp at hmem
    · intro k hk _ _
      simp at hk
  | cons k0 ks ih =>
    intro res h
    simp only [grp_go] at h
    split at h
    · next hskipS =>
      simp only [Bool.and_eq_true, Bool.not_eq_true', decide_eq_true_eq] at hskipS
      obtain ⟨hincS, hkS⟩ := hskipS
      obtain ⟨h1, h2⟩ := ih res h
      refine ⟨fun k v hmem => ?_, fun k hk hfs hfl => ?_⟩
      · obtain ⟨hk, hfs, hfl, hw⟩ := h1 k v hmem
        exact ⟨List.mem_cons_of_mem _ hk, hfs, hfl, hw⟩
      · rcases List.mem_cons.mp hk with rfl | hk'
        · rcases hfs with h' | h'
          · rw [hincS] at h'; cases h'
          · exact absurd hkS h'
        · exact h2 k hk' hfs hfl
    · next hnoS =>
      have hfs0 : incS = true ∨ k0 ∉ S := by
        by_cases hi : incS = true
        · exact Or.inl hi
        · right
          intro hks
          simp only [Bool.not_eq_true] at hi
          exact hnoS (by simp [hi, hks])
      split at h
      · next hskipL =>
        simp only [Bool.and_eq_true, Bool.not_eq_true', decide_eq_true_eq] at hskipL
        obtain ⟨hincL, hkL⟩ := hskipL
        obtain ⟨h1, h2⟩ := ih res h
        refine ⟨fun k v hmem => ?_, fun k hk hfs hfl => ?_⟩
        · obtain ⟨hk, hfs, hfl, hw⟩ := h1 k v hmem
          exact ⟨List.mem_cons_of_mem _ hk, hfs, hfl, hw⟩
        · rcases List.mem_cons.mp hk with rfl | hk'
          · rcases hfl with h' | h'
            · rw [hincL] at h'; cases h'
            · exact absurd hkL h'
          · exact h2 k hk' hfs hfl
      · next hnoL =>
        have hfl0 : incL = true ∨ k0 ∉ L := by
          by_cases hi : incL = true
          · exact Or.inl hi
          · right
            intro hkl
            simp only [Bool.not_eq_true] at hi
            exact hnoL (by simp [hi, hkl])
        cases hlk : P.lookup k0 with
        | none =>
          rw [hlk] at h
          simp at h
        | some w =>
          rw [hlk] at h
          cases hrec : grp_go P S L incS incL toStr ks with
          | none => rw [hrec] at h; simp at h
          | some rest =>
            rw [hrec] at h
            simp only [Option.map_some', Option.some.injEq] at h
            subst h
            obtain ⟨h1, h2⟩ := ih rest hrec
            refine ⟨fun k v hmem => ?_, fun k hk hfs hfl => ?_⟩
            · rcases List.mem_cons.mp hmem with heq | hmem'
              · cases heq
                exact ⟨List.mem_cons_self _ _, hfs0, hfl0, w, hlk, rfl⟩
              · obtain ⟨hk, hfs, hfl, hw⟩ := h1 k v hmem'
                exact ⟨List.mem_cons_of_mem _ hk, hfs, hfl, hw⟩
            · rcases List.mem_cons.mp hk with rfl | hk'
              · exact ⟨_, List.mem_cons_self _ _⟩
              · obtain ⟨v, hv⟩ := h2 k hk' hfs hfl
                exact ⟨v, List.mem_cons_of_mem _ hv⟩

/-- **C8**. `get_requested_params` returns a mapping whose keys are exactly
the requested keys minus the secret keys (unless `include_secrets`) and
minus the local keys (unless `include_locals`), each mapped to its raw
stored value, rendered as a string when `to_str`; concretely, after a
successful `get_string("A", is_secret=True)` and `get_int("B")`, the
default call includes `B` and excludes `A`, while `include_secrets=True`
includes both. -/
theorem c8_get_requested_params :
    (∀ (st : CMState) (incS incL toStr : Bool) (res : List (String × PyVal)),
      get_requested_params st incS incL toStr = some res →
      ((∀ k v, (k, v) ∈ res →
        k ∈ st.requested_keys ∧ (incS = true ∨ k ∉ st.secret_keys) ∧
        (incL = true ∨ k ∉ st.local_keys) ∧
        ∃ w, _get st k = some w ∧ v = (if toStr then .vStr (pyStr w) else w))
      ∧ (∀ k, k ∈ st.requested_keys → (incS = true ∨ k ∉ st.secret_keys) →
          (incL = true ∨ k ∉ st.local_keys) → ∃ v, (k, v) ∈ res)))
    ∧ get_requested_params
        ((get_int ((get_string (newConfigManager [("A", .vStr "hello"), ("B", .vInt 42)])
          "A" false false true false .vNone none).2) "B" false false false false
          .vNone none).2) false false false = some [("B", .vInt 42)]
    ∧ get_requested_params
        ((get_int ((get_string (newConfigManager [("A", .vStr "hello"), ("B", .vInt 42)])
          "A" false false true false .vNone none).2) "B" false false false false
          .vNone none).2) true false false =
      some [("A", .vStr "hello"), ("B", .vInt 42)] :=
  ⟨fun st incS incL toStr res h =>
    grp_go_spec st.params st.secret_keys st.local_keys incS incL toStr
      st.requested_keys res h,
   rfl, rfl⟩

theorem c8_get_requested_params_witness :
    ∃ v, ("B", v) ∈ ([("B", PyVal.vInt 42)] : List (String × PyVal)) :=
  (c8_get_requested_params.1
    ((get_int ((get_string (newConfigManager [("A", .vStr "hello"), ("B", .vInt 42)])
      "A" false false true false .vNone none).2) "B" false false false false
      .vNone none).2) false false false [("B", .vInt 42)] rfl).2 "B"
    (by decide) (Or.inr (by decide)) (Or.inr (by decide))

theorem gtv_params (tt : PyVal → Bool) (tc : String → Except ConvFail PyVal) (tn : String)
    (st : CMState) (key : String) (io isec iloc : Bool) (d : PyVal)
    (o : Option (List PyVal)) :
    (_get_typed_value st key tt tc tn io isec iloc d o).2.params = st.params := by
  rw [gtv_snd]
  split <;> rfl

theorem gtlv_params (tt : PyVal → Bool) (tc : String → Except ConvFail PyVal) (rt : String)
    (st : CMState) (key : String) (io isec iloc : Bool) (d : PyVal)
    (o : Option (List PyVal)) :
    (_get_typed_list_value st key tt tc rt io isec iloc d o).2.params = st.params := by
  rw [gtlv_snd, gtv_snd]
  split <;> rfl

theorem get_dict_single_snd (st : CMState) (key : String) (io isec iloc : Bool)
    (d : PyVal) (o : Option (List PyVal)) :
    (get_dict st key false io isec iloc d o).2 =
      (_get_typed_value st key isInstDict convert_to_dict "Mapping" io isec iloc d o).2 := by
  unfold get_dict
  rw [if_neg (by simp)]
  rcases h : _get_typed_value st key isInstDict convert_to_dict "Mapping" io isec iloc d o
    with ⟨r, st'⟩
  cases r with
  | error e => simp
  | ok value =>
    by_cases hf : pyFalsy value
    · simp [hf]
    · cases value with
      | vDict dd => simp [hf]
      | vNone => simp [hf]
      | vBool b => simp [hf]
      | vInt n => simp [hf]
      | vStr s => simp [hf]
      | vList l => simp [hf]
      | vUri u => simp [hf]

theorem applyCall_params (st : CMState) (c : GetterCall) :
    (applyCall st c).params = st.params := by
  cases c with
  | cInt key il io isec iloc d o =>
    show (get_int st key il io isec iloc d o).2.params = st.params
    unfold get_int
    cases il
    · rw [if_neg (by simp)]; exact gtv_params _ _ _ _ _ _ _ _ _ _
    · rw [if_pos rfl]; exact gtlv_params _ _ _ _ _ _ _ _ _ _
  | cBoolean key il io isec iloc d o =>
    show (get_boolean st key il io isec iloc d o).2.params = st.params
    unfold get_boolean
    cases il
    · rw [if_neg (by simp)]; exact gtv_params _ _ _ _ _ _ _ _ _ _
    · rw [if_pos rfl]; exact gtlv_params _ _ _ _ _ _ _ _ _ _
  | cString key il io isec iloc d o =>
    show (get_string st key il io isec iloc d o).2.params = st.params
    unfold get_string
    cases il
    · rw [if_neg (by simp)]; exact gtv_params _ _ _ _ _ _ _ _ _ _
    · rw [if_pos rfl]; exact gtlv_params _ _ _ _ _ _ _ _ _ _
  | cDict key il io isec iloc d o =>
    show (get_dict st key il io isec iloc d o).2.params = st.params
    cases il
    · rw [get_dict_single_snd]; exact gtv_params _ _ _ _ _ _ _ _ _ _
    · unfold get_dict
      rw [if_pos rfl]; exact gtlv_params _ _ _ _ _ _ _ _ _ _
  | cUri key il io isec iloc d o =>
    show (get_uri st key il io isec iloc d o).2.params = st.params
    unfold get_uri
    cases il
    · rw [if_neg (by simp)]; exact gtv_params _ _ _ _ _ _ _ _ _ _
    · rw [if_pos rfl]; exact gtlv_params _ _ _ _ _ _ _ _ _ _
  | cList key io isec iloc d o =>
    show (get_list st key io isec iloc d o).2.params = st.params
    unfold get_list
    exact gtv_params _ _ _ _ _ _ _ _ _ _

/-- **C9**. Over any sequence of typed-getter calls (successful or failing,
single-value or list form) the raw parameter mapping supplied at
construction is never mutated: the params component is unchanged, so every
key still maps to the value it had at construction. -/
theorem c9_params_never_mutated (st : CMState) (calls : List GetterCall) :
    (runCalls st calls).params = st.params
    ∧ ∀ k, (runCalls st calls).params.lookup k = st.params.lookup k := by
  have hp : ∀ (cs : List GetterCall) (s : CMState), (runCalls s cs).params = s.params := by
    intro cs
    induction cs with
    | nil => intro s; rfl
    | cons c cs ih =>
      intro s
      show (runCalls (applyCall s c) cs).params = s.params
      rw [ih (applyCall s c), applyCall_params]
  exact ⟨hp calls st, fun k => by rw [hp calls st]⟩
